import Mathlib

/-!
# techNotes: the notes controller

A shallow embedding of `controllers/notesController.js` (the four request
handlers `getAllNotes`, `createNewNote`, `updateNote`, `deleteNote`) over an
explicit model of the two document stores, followed by the properties of the
handlers.

The handlers are embedded from the controller source.  The two Mongoose models
(`models/Note`, `models/User`) and the database behind them are collaborators
of the controller; their operations are modelled from the collaborator
contracts of the specification and are marked as such.
-/

namespace TechNotes

/-! ## Data model -/

/-- User document: only the fields the controller reads. -/
structure User where
  id : String
  username : String
  deriving DecidableEq

/-- Note document. `id` is the string form of `_id`, `user` the owner id. -/
structure Note where
  id : String
  user : String
  title : String
  text : String
  completed : Bool
  deriving DecidableEq

/-- The record `{ ...note, username: user.username }` built by `getAllNotes`. -/
structure NoteView where
  id : String
  user : String
  title : String
  text : String
  completed : Bool
  username : String
  deriving DecidableEq

/-- The users collection, in natural order. -/
abbrev UserStore := List User

/-- The notes collection, in natural order. -/
abbrev NoteStore := List Note

/-- JavaScript values a JSON body field can hold, as far as `typeof` tells
them apart (`undefined` is an absent field). -/
inductive JsValue where
  | undefined
  | null
  | bool (b : Bool)
  | number (n : Int)
  | string (s : String)
  deriving DecidableEq

/-- The `typeof` operator. -/
def JsValue.typeof : JsValue → String
  | .undefined => "undefined"
  | .null => "object"
  | .bool _ => "boolean"
  | .number _ => "number"
  | .string _ => "string"

/-- The JavaScript `!x` test for a body field that is a string or absent:
`undefined` and the empty string are falsy, every other string is truthy. -/
def falsy : Option String → Bool
  | none => true
  | some s => s == ""

/-- Body of `POST /notes`. The fields are strings (the schema types of the
note) or absent. -/
structure CreateBody where
  user : Option String
  title : Option String
  text : Option String
  deriving DecidableEq

/-- Body of `PATCH /notes`. `completed` is kept as a raw value because the
handler inspects its `typeof`. -/
structure UpdateBody where
  id : Option String
  user : Option String
  title : Option String
  text : Option String
  completed : JsValue
  deriving DecidableEq

/-- Body of `DELETE /notes`. -/
structure DeleteBody where
  id : Option String
  deriving DecidableEq

/-- What `res.json` is given: an object `{ message }`, a bare string, or the
array of note records. -/
inductive Body where
  | message (m : String)
  | text (s : String)
  | notes (l : List NoteView)
  deriving DecidableEq

/-- An HTTP response: status code and JSON body (`res.json` without
`res.status` answers 200). -/
structure Response where
  status : Nat
  body : Body
  deriving DecidableEq

/-- An exception escaping a handler (handed by `asyncHandler` to the error
middleware). -/
inductive JsError where
  | typeError (msg : String)
  deriving DecidableEq

/-! ## Store operations -/

/-- Modelled from the spec: `UserStore.findById(id) → User | none` of
`models/User` (the document whose id is `id`, if any). -/
def User.findById (users : UserStore) (id : String) : Option User :=
  users.find? (fun u => u.id == id)

/-- Modelled from the spec: `NoteStore.findAll() → sequence<Note>` of
`models/Note` (`Note.find().lean()`): every note, in natural order. -/
def Note.find (notes : NoteStore) : List Note :=
  notes

/-- Modelled from the spec: `NoteStore.findOne(filter, collation)` of
`models/Note`: the first note whose title equals `title` under the collation.
The collation with locale `en` and strength 2 is the parameter `ckey`, the
comparison key of a string: two titles are equal under the collation exactly
when their keys are equal. -/
def Note.findOne {K : Type} [DecidableEq K] (ckey : String → K)
    (notes : NoteStore) (title : String) : Option Note :=
  notes.find? (fun n => decide (ckey n.title = ckey title))

/-- Modelled from the spec: `NoteStore.findById(id) → Note | none` of
`models/Note`. -/
def Note.findById (notes : NoteStore) (id : String) : Option Note :=
  notes.find? (fun n => n.id == id)

/-- Modelled from the spec: `NoteStore.create(fields) → Note` of
`models/Note`: inserts a note with the given fields, `completed = false` (the
schema default) and the id `newId` chosen by the store; returns the stored
document. -/
def Note.create (newId : String) (notes : NoteStore) (user title text : String) :
    NoteStore × Option Note :=
  let note : Note := { id := newId, user := user, title := title, text := text,
                       completed := false }
  (notes ++ [note], some note)

/-- Modelled from the spec: in-place save of a note handle of `models/Note`:
the stored document with the id of the handle is overwritten by the handle. -/
def Note.save : NoteStore → Note → NoteStore
  | [], _ => []
  | m :: rest, n => if m.id = n.id then n :: rest else m :: Note.save rest n

/-- Modelled from the spec: delete via the note handle of `models/Note`: the
stored document with the id of the handle is removed. -/
def Note.deleteOne : NoteStore → Note → NoteStore
  | [], _ => []
  | m :: rest, n => if m.id = n.id then rest else m :: Note.deleteOne rest n

/-! ## The handlers -/

/-- The callback of `notes.map` in `getAllNotes`: looks the owner up and reads
`user.username`; reading a property of `null` throws a `TypeError`. -/
def withUsername (users : UserStore) (note : Note) : Except JsError NoteView :=
  match User.findById users note.user with
  | none => .error (.typeError "Cannot read properties of null (reading username)")
  | some user =>
    .ok { id := note.id, user := note.user, title := note.title, text := note.text,
          completed := note.completed, username := user.username }

/-- `Promise.all(notes.map(...))`: the records in the order of the notes, or
the rejection of the first callback that throws. -/
def notesWithUser (users : UserStore) : List Note → Except JsError (List NoteView)
  | [] => .ok []
  | note :: rest =>
    match withUsername users note with
    | .error e => .error e
    | .ok v =>
      match notesWithUser users rest with
      | .error e => .error e
      | .ok vs => .ok (v :: vs)

/-- Handler of `GET /notes`. -/
def getAllNotes (users : UserStore) (store : NoteStore) : Except JsError Response :=
  let notes := Note.find store
  if notes.length = 0 then
    .ok { status := 400, body := .message "No notes found" }
  else
    match notesWithUser users notes with
    | .error e => .error e
    | .ok views => .ok { status := 200, body := .notes views }

/-- Handler of `POST /notes`. Returns the store it leaves and its response. -/
def createNewNote {K : Type} [DecidableEq K] (ckey : String → K) (newId : String)
    (store : NoteStore) (body : CreateBody) : NoteStore × Response :=
  if falsy body.user || falsy body.title || falsy body.text then
    (store, { status := 400, body := .message "All fields are required" })
  else
    match body.user, body.title, body.text with
    | some user, some title, some text =>
      match Note.findOne ckey store title with
      | some _ => (store, { status := 409, body := .message "Duplicate note title" })
      | none =>
        match Note.create newId store user title text with
        | (store1, some _) => (store1, { status := 201, body := .message "New note created" })
        | (store1, none) =>
          (store1, { status := 400, body := .message "Invalid note data received" })
    | _, _, _ => (store, { status := 400, body := .message "All fields are required" })

/-- Handler of `PATCH /notes`. Returns the store it leaves and its response. -/
def updateNote {K : Type} [DecidableEq K] (ckey : String → K)
    (store : NoteStore) (body : UpdateBody) : NoteStore × Response :=
  if falsy body.id || falsy body.user || falsy body.title || falsy body.text
      || body.completed.typeof != "boolean" then
    (store, { status := 400, body := .message "All fields are required" })
  else
    match body.id, body.user, body.title, body.text, body.completed with
    | some id, some user, some title, some text, .bool completed =>
      match Note.findById store id with
      | none => (store, { status := 400, body := .message "Note not found" })
      | some note =>
        let duplicate := Note.findOne ckey store title
        if duplicate.isSome && (duplicate.map fun d => d.id) != some id then
          (store, { status := 409, body := .message "Duplicate note title" })
        else
          let updatedNote : Note :=
            { note with user := user, title := title, text := text, completed := completed }
          (Note.save store updatedNote,
            { status := 200, body := .message ("\"" ++ updatedNote.title ++ "\" updated") })
    | _, _, _, _, _ => (store, { status := 400, body := .message "All fields are required" })

/-- Handler of `DELETE /notes`. Returns the store it leaves and its response. -/
def deleteNote (store : NoteStore) (body : DeleteBody) : NoteStore × Response :=
  if falsy body.id then
    (store, { status := 400, body := .message "Note ID required" })
  else
    match body.id with
    | none => (store, { status := 400, body := .message "Note ID required" })
    | some id =>
      match Note.findById store id with
      | none => (store, { status := 400, body := .message "Note not found" })
      | some note =>
        (Note.deleteOne store note,
          { status := 200,
            body := .text ("Note titled \"" ++ note.title ++ "\" with ID " ++ note.id ++ " deleted") })

/-! ## Predicates used by the properties -/

/-- Title uniqueness: no two distinct notes of the store have titles that are
equal under the collation. -/
def TitlesUnique {K : Type} (ckey : String → K) (store : NoteStore) : Prop :=
  store.Pairwise (fun a b => ckey a.title ≠ ckey b.title)

/-- Ids are unique in the store (`_id` is the primary key). -/
def IdsUnique (store : NoteStore) : Prop :=
  store.Pairwise (fun a b => a.id ≠ b.id)

/-- The record of a note with the username attached. -/
def NoteView.ofNote (note : Note) (username : String) : NoteView :=
  { id := note.id, user := note.user, title := note.title, text := note.text,
    completed := note.completed, username := username }

/-- The username of the User whose id is `id` (the empty string stands for
"no such user"; the reference below is compared with the handler only when
every owner exists). -/
def usernameOf (users : UserStore) (id : String) : String :=
  match users.filter (fun u => decide (u.id = id)) with
  | [] => ""
  | u :: _ => u.username

/-- Reference for `getAllNotes`, written from the specification: 400 with
"No notes found" on an empty store; otherwise 200 with one record per note, in
store order, each the fields of the note plus the username of its owner. -/
def getAllNotesRef (users : UserStore) (store : NoteStore) : Response :=
  if store = [] then
    { status := 400, body := .message "No notes found" }
  else
    { status := 200,
      body := .notes (store.map fun n => NoteView.ofNote n (usernameOf users n.user)) }

/-- A sample comparison key that ignores the case of ASCII letters, used to
instantiate the collation on concrete inputs. -/
def asciiFold (s : String) : List Nat :=
  s.data.map (fun c => if 65 ≤ c.toNat ∧ c.toNat ≤ 90 then c.toNat + 32 else c.toNat)

/-! ## Lemmas on the store operations -/

theorem findOne_eq_none {K : Type} [DecidableEq K] (ckey : String → K)
    (store : NoteStore) (title : String) :
    Note.findOne ckey store title = none ↔ ∀ n ∈ store, ckey n.title ≠ ckey title := by
  simp [Note.findOne]

theorem findOne_some {K : Type} [DecidableEq K] (ckey : String → K)
    (store : NoteStore) (title : String) (d : Note)
    (h : Note.findOne ckey store title = some d) :
    d ∈ store ∧ ckey d.title = ckey title := by
  refine ⟨List.mem_of_find?_eq_some h, ?_⟩
  have := List.find?_some h
  simpa using this

theorem findById_some (store : NoteStore) (id : String) (n : Note)
    (h : Note.findById store id = some n) : n ∈ store ∧ n.id = id := by
  refine ⟨List.mem_of_find?_eq_some h, ?_⟩
  have := List.find?_some h
  simpa using this

theorem findById_eq_none (store : NoteStore) (id : String) :
    Note.findById store id = none ↔ ∀ n ∈ store, n.id ≠ id := by
  simp [Note.findById]

theorem mem_save (store : NoteStore) (n b : Note) (h : b ∈ Note.save store n) :
    b ∈ store ∨ b = n := by
  induction store with
  | nil => simp [Note.save] at h
  | cons m rest ih =>
    simp only [Note.save] at h
    split at h
    · rcases List.mem_cons.1 h with h1 | h1
      · exact Or.inr h1
      · exact Or.inl (List.mem_cons_of_mem _ h1)
    · rcases List.mem_cons.1 h with h1 | h1
      · exact Or.inl (h1 ▸ List.mem_cons_self _ _)
      · rcases ih h1 with h2 | h2
        · exact Or.inl (List.mem_cons_of_mem _ h2)
        · exact Or.inr h2

theorem deleteOne_sublist (store : NoteStore) (n : Note) :
    List.Sublist (Note.deleteOne store n) store := by
  induction store with
  | nil => simp [Note.deleteOne]
  | cons m rest ih =>
    simp only [Note.deleteOne]
    split
    · exact List.sublist_cons_self _ _
    · exact ih.cons₂ _

/-- Saving a note whose title no note with another id holds keeps the titles
unique. -/
theorem save_titlesUnique {K : Type} (ckey : String → K) (store : NoteStore) (n : Note)
    (hids : IdsUnique store) (hinv : TitlesUnique ckey store)
    (hother : ∀ m ∈ store, m.id ≠ n.id → ckey m.title ≠ ckey n.title) :
    TitlesUnique ckey (Note.save store n) := by
  induction store with
  | nil => simp [Note.save, TitlesUnique]
  | cons m rest ih =>
    unfold TitlesUnique IdsUnique at *
    rw [List.pairwise_cons] at hids hinv
    simp only [Note.save]
    split
    · rename_i hm
      rw [List.pairwise_cons]
      refine ⟨fun b hb => ?_, hinv.2⟩
      have hbid : b.id ≠ n.id := fun h => hids.1 b hb (hm.trans h.symm)
      exact fun h => hother b (List.mem_cons_of_mem _ hb) hbid h.symm
    · rename_i hm
      rw [List.pairwise_cons]
      refine ⟨fun b hb => ?_, ih hids.2 hinv.2 (fun x hx => hother x (List.mem_cons_of_mem _ hx))⟩
      rcases mem_save rest n b hb with h1 | h1
      · exact hinv.1 b h1
      · subst h1
        exact hother m (List.mem_cons_self _ _) hm

/-- In a store with unique titles, when the title lookup finds nothing or finds
the note with id `id`, no note with another id holds the title. -/
theorem no_other_holder {K : Type} [DecidableEq K] (ckey : String → K)
    (store : NoteStore) (title id : String) (hinv : TitlesUnique ckey store)
    (hdup : ¬ ((Note.findOne ckey store title).isSome
      && ((Note.findOne ckey store title).map fun d => d.id) != some id) = true) :
    ∀ m ∈ store, m.id ≠ id → ckey m.title ≠ ckey title := by
  intro m hm hid hkey
  cases hf : Note.findOne ckey store title with
  | none => exact (findOne_eq_none ckey store title).1 hf m hm hkey
  | some d =>
    obtain ⟨hd, hdk⟩ := findOne_some ckey store title d hf
    simp [hf] at hdup
    have hne : d ≠ m := fun h => hid (h ▸ hdup)
    have hsymm : Symmetric (fun a b : Note => ckey a.title ≠ ckey b.title) :=
      fun a b h => Ne.symm h
    exact List.Pairwise.forall hsymm hinv hd hm hne (hdk.trans hkey.symm)

/-! ## The handlers on well-typed, validated bodies -/

theorem createNewNote_valid {K : Type} [DecidableEq K] (ckey : String → K) (newId : String)
    (store : NoteStore) (user title text : String)
    (hu : user ≠ "") (ht : title ≠ "") (hx : text ≠ "") :
    createNewNote ckey newId store { user := some user, title := some title, text := some text }
      = match Note.findOne ckey store title with
        | some _ => (store, { status := 409, body := .message "Duplicate note title" })
        | none =>
          (store ++ [{ id := newId, user := user, title := title, text := text,
                       completed := false }],
            { status := 201, body := .message "New note created" }) := by
  cases hf : Note.findOne ckey store title <;>
    simp [createNewNote, falsy, hu, ht, hx, Note.create, hf]

theorem createNewNote_store {K : Type} [DecidableEq K] (ckey : String → K) (newId : String)
    (store : NoteStore) (body : CreateBody) :
    (createNewNote ckey newId store body).1 = store ∨
    ∃ user title text, Note.findOne ckey store title = none ∧
      (createNewNote ckey newId store body).1
        = store ++ [{ id := newId, user := user, title := title, text := text,
                      completed := false }] := by
  obtain ⟨u, t, x⟩ := body
  rcases u with _ | user <;> rcases t with _ | title <;> rcases x with _ | text <;>
    try (left; simp [createNewNote, falsy]; done)
  by_cases h : user = "" ∨ title = "" ∨ text = ""
  · left
    rcases h with h | h | h <;> simp [createNewNote, falsy, h]
  · push_neg at h
    rw [createNewNote_valid ckey newId store user title text h.1 h.2.1 h.2.2]
    cases hf : Note.findOne ckey store title with
    | some d => exact Or.inl rfl
    | none => exact Or.inr ⟨user, title, text, hf, rfl⟩

theorem updateNote_valid {K : Type} [DecidableEq K] (ckey : String → K)
    (store : NoteStore) (id user title text : String) (completed : Bool)
    (hi : id ≠ "") (hu : user ≠ "") (ht : title ≠ "") (hx : text ≠ "") :
    updateNote ckey store { id := some id, user := some user, title := some title,
                            text := some text, completed := .bool completed }
      = match Note.findById store id with
        | none => (store, { status := 400, body := .message "Note not found" })
        | some note =>
          if (Note.findOne ckey store title).isSome
              && ((Note.findOne ckey store title).map fun d => d.id) != some id then
            (store, { status := 409, body := .message "Duplicate note title" })
          else
            (Note.save store { note with user := user, title := title, text := text,
                                         completed := completed },
              { status := 200, body := .message ("\"" ++ title ++ "\" updated") }) := by
  simp [updateNote, falsy, hi, hu, ht, hx, JsValue.typeof]

theorem updateNote_store {K : Type} [DecidableEq K] (ckey : String → K)
    (store : NoteStore) (body : UpdateBody) :
    (updateNote ckey store body).1 = store ∨
    ∃ id user title text completed note,
      body = { id := some id, user := some user, title := some title, text := some text,
               completed := .bool completed } ∧
      id ≠ "" ∧ user ≠ "" ∧ title ≠ "" ∧ text ≠ "" ∧
      Note.findById store id = some note ∧
      ¬ ((Note.findOne ckey store title).isSome
          && ((Note.findOne ckey store title).map fun d => d.id) != some id) = true ∧
      (updateNote ckey store body).1
        = Note.save store { note with user := user, title := title, text := text,
                                      completed := completed } := by
  obtain ⟨i, u, t, x, c⟩ := body
  rcases i with _ | id <;> rcases u with _ | user <;> rcases t with _ | title <;>
    rcases x with _ | text <;> try (left; simp [updateNote, falsy]; done)
  cases c <;> try (left; simp [updateNote, falsy, JsValue.typeof]; done)
  rename_i completed
  by_cases h : id = "" ∨ user = "" ∨ title = "" ∨ text = ""
  · left
    rcases h with h | h | h | h <;> simp [updateNote, falsy, h]
  · push_neg at h
    rw [updateNote_valid ckey store id user title text completed h.1 h.2.1 h.2.2.1 h.2.2.2]
    cases hf : Note.findById store id with
    | none => exact Or.inl rfl
    | some note =>
      by_cases hd : ((Note.findOne ckey store title).isSome
          && ((Note.findOne ckey store title).map fun d => d.id) != some id) = true
      · left; simp only [hd, ↓reduceIte]
      · right
        refine ⟨id, user, title, text, completed, note, rfl, h.1, h.2.1, h.2.2.1, h.2.2.2,
          hf, hd, ?_⟩
        simp only [hd, Bool.false_eq_true, ↓reduceIte]

theorem deleteNote_valid (store : NoteStore) (id : String) (hi : id ≠ "") :
    deleteNote store { id := some id }
      = match Note.findById store id with
        | none => (store, { status := 400, body := .message "Note not found" })
        | some note =>
          (Note.deleteOne store note,
            { status := 200,
              body := .text ("Note titled \"" ++ note.title ++ "\" with ID " ++ note.id
                              ++ " deleted") }) := by
  simp [deleteNote, falsy, hi]

theorem deleteNote_store (store : NoteStore) (body : DeleteBody) :
    (deleteNote store body).1 = store ∨
    ∃ note, (deleteNote store body).1 = Note.deleteOne store note := by
  obtain ⟨i⟩ := body
  rcases i with _ | id
  · left; simp [deleteNote, falsy]
  · by_cases h : id = ""
    · left; simp [deleteNote, falsy, h]
    · rw [deleteNote_valid store id h]
      cases hf : Note.findById store id with
      | none => exact Or.inl rfl
      | some note => exact Or.inr ⟨note, rfl⟩

/-! ## Title uniqueness -/

/-- C1: title uniqueness is an invariant of the operations. From a store in
which no two distinct notes have titles equal under the collation, the store
left by one call of `createNewNote`, `updateNote` (ids being unique in the
store) or `deleteNote`, with any body and whatever the response, again has no
two distinct notes with equal titles. In particular, when a note titled
"Todo" exists and the collation equates "TODO" with "Todo", `createNewNote`
with title "TODO" inserts nothing and, user and text being non-falsy, responds
409. -/
theorem title_uniqueness_invariant {K : Type} [DecidableEq K] (ckey : String → K)
    (store : NoteStore) :
    (TitlesUnique ckey store →
      (∀ newId body, TitlesUnique ckey (createNewNote ckey newId store body).1) ∧
      (IdsUnique store → ∀ body, TitlesUnique ckey (updateNote ckey store body).1) ∧
      (∀ body, TitlesUnique ckey (deleteNote store body).1)) ∧
    (ckey "TODO" = ckey "Todo" → (∃ n ∈ store, n.title = "Todo") →
      ∀ newId user text,
        (createNewNote ckey newId store { user := user, title := some "TODO", text := text }).1
          = store ∧
        (falsy user = false → falsy text = false →
          (createNewNote ckey newId store { user := user, title := some "TODO", text := text }).2
            = { status := 409, body := .message "Duplicate note title" })) := by
  refine ⟨fun hinv => ⟨?_, ?_, ?_⟩, ?_⟩
  · intro newId body
    rcases createNewNote_store ckey newId store body with h | ⟨user, title, text, hf, h⟩
    · rw [h]; exact hinv
    · rw [h]
      unfold TitlesUnique at *
      rw [List.pairwise_append]
      refine ⟨hinv, List.pairwise_singleton _ _, ?_⟩
      intro a ha b hb
      rw [List.mem_singleton] at hb
      subst hb
      exact (findOne_eq_none ckey store title).1 hf a ha
  · intro hids body
    rcases updateNote_store ckey store body with
      h | ⟨id, user, title, text, completed, note, _, _, _, _, _, hf, hd, h⟩
    · rw [h]; exact hinv
    · rw [h]
      have hid : note.id = id := (findById_some store id note hf).2
      apply save_titlesUnique ckey store _ hids hinv
      intro m hm hne
      exact no_other_holder ckey store title id hinv hd m hm (by simpa [hid] using hne)
  · intro body
    rcases deleteNote_store store body with h | ⟨note, h⟩
    · rw [h]; exact hinv
    · rw [h]
      exact List.Pairwise.sublist (deleteOne_sublist store note) hinv
  · intro hkey ⟨n, hn, hnt⟩ newId user text
    have hsome : ∃ d, Note.findOne ckey store "TODO" = some d := by
      cases hf : Note.findOne ckey store "TODO" with
      | some d => exact ⟨d, rfl⟩
      | none =>
        exact absurd (hnt ▸ hkey.symm) ((findOne_eq_none ckey store "TODO").1 hf n hn)
    obtain ⟨d, hd⟩ := hsome
    rcases user with _ | user <;> rcases text with _ | text <;>
      try (simp [createNewNote, falsy]; done)
    by_cases hu : user = ""
    · simp [createNewNote, falsy, hu]
    by_cases hx : text = ""
    · simp [createNewNote, falsy, hx]
    rw [createNewNote_valid ckey newId store user "TODO" text hu (by decide) hx, hd]
    simp

/-- Witness of C1 on a store holding one note titled "Todo", with the ASCII
case-folding key as collation. -/
theorem title_uniqueness_invariant_witness :
    TitlesUnique asciiFold
      (updateNote asciiFold
        [{ id := "n1", user := "u1", title := "Todo", text := "a", completed := false }]
        { id := some "n1", user := some "u1", title := some "todo", text := some "b",
          completed := .bool true }).1 ∧
    createNewNote asciiFold "n2"
        [{ id := "n1", user := "u1", title := "Todo", text := "a", completed := false }]
        { user := some "u1", title := some "TODO", text := some "b" }
      = ([{ id := "n1", user := "u1", title := "Todo", text := "a", completed := false }],
          { status := 409, body := .message "Duplicate note title" }) :=
  ⟨((title_uniqueness_invariant asciiFold
        [{ id := "n1", user := "u1", title := "Todo", text := "a", completed := false }]).1
      (by simp [TitlesUnique])).2.1 (by simp [IdsUnique]) _,
   Prod.ext
    (((title_uniqueness_invariant asciiFold
        [{ id := "n1", user := "u1", title := "Todo", text := "a", completed := false }]).2
      (by decide) ⟨_, List.mem_singleton.2 rfl, rfl⟩ "n2" (some "u1") (some "b")).1)
    (((title_uniqueness_invariant asciiFold
        [{ id := "n1", user := "u1", title := "Todo", text := "a", completed := false }]).2
      (by decide) ⟨_, List.mem_singleton.2 rfl, rfl⟩ "n2" (some "u1") (some "b")).2
      (by decide) (by decide))⟩

/-! ## Duplicate titles -/

/-- Counterexample to C2 as stated for every store state: in a store holding
"x" (id n1) and then "X" (id n2), titles equal under the collation, a valid
update of n1 with title "x" matches the title of n2, a note other than the one
being updated, yet the lookup returns n1 itself and the answer is 200 with the
write done, not 409. -/
theorem duplicate_title_conflict_counterexample :
    ¬ ∀ (store : NoteStore) (id user title text : String) (completed : Bool) (note : Note),
      id ≠ "" → user ≠ "" → title ≠ "" → text ≠ "" →
      Note.findById store id = some note →
      (∃ m ∈ store, m.id ≠ id ∧ asciiFold m.title = asciiFold title) →
      (updateNote asciiFold store
          { id := some id, user := some user, title := some title, text := some text,
            completed := .bool completed }).2
        = { status := 409, body := .message "Duplicate note title" } := by
  intro h
  have h1 := h
    [{ id := "n1", user := "u1", title := "x", text := "a", completed := false },
     { id := "n2", user := "u1", title := "X", text := "b", completed := false }]
    "n1" "u1" "x" "c" true
    { id := "n1", user := "u1", title := "x", text := "a", completed := false }
    (by decide) (by decide) (by decide) (by decide) (by decide)
    ⟨{ id := "n2", user := "u1", title := "X", text := "b", completed := false },
      by simp, by decide, by decide⟩
  have h2 : updateNote asciiFold
      [{ id := "n1", user := "u1", title := "x", text := "a", completed := false },
       { id := "n2", user := "u1", title := "X", text := "b", completed := false }]
      { id := some "n1", user := some "u1", title := some "x", text := some "c",
        completed := .bool true }
      = ([{ id := "n1", user := "u1", title := "x", text := "c", completed := true },
          { id := "n2", user := "u1", title := "X", text := "b", completed := false }],
          { status := 200, body := .message "\"x\" updated" }) := by decide
  rw [h2] at h1
  exact absurd h1 (by decide)

/-- C2 (amended): a validated create whose title matches an existing title
under the collation is answered 409 "Duplicate note title" and leaves the store
as it was. A validated `updateNote` whose id names an existing note is
answered 409, the store left as it was, whenever some note matches the title
and the note being updated is not itself a matching note (ids unique); and in
a store with unique titles, whenever a note other than the one being updated
matches. -/
theorem duplicate_title_conflict {K : Type} [DecidableEq K] (ckey : String → K)
    (store : NoteStore) :
    (∀ newId user title text, user ≠ "" → title ≠ "" → text ≠ "" →
      (∃ m ∈ store, ckey m.title = ckey title) →
      createNewNote ckey newId store
          { user := some user, title := some title, text := some text }
        = (store, { status := 409, body := .message "Duplicate note title" })) ∧
    (∀ id user title text completed note, id ≠ "" → user ≠ "" → title ≠ "" → text ≠ "" →
      IdsUnique store → Note.findById store id = some note →
      (∃ m ∈ store, ckey m.title = ckey title) → ckey note.title ≠ ckey title →
      updateNote ckey store
          { id := some id, user := some user, title := some title, text := some text,
            completed := .bool completed }
        = (store, { status := 409, body := .message "Duplicate note title" })) ∧
    (∀ id user title text completed note, id ≠ "" → user ≠ "" → title ≠ "" → text ≠ "" →
      TitlesUnique ckey store → Note.findById store id = some note →
      (∃ m ∈ store, m.id ≠ id ∧ ckey m.title = ckey title) →
      updateNote ckey store
          { id := some id, user := some user, title := some title, text := some text,
            completed := .bool completed }
        = (store, { status := 409, body := .message "Duplicate note title" })) := by
  have hfound : ∀ title, (∃ m ∈ store, ckey m.title = ckey title) →
      ∃ d, Note.findOne ckey store title = some d := by
    intro title ⟨m, hm, hmk⟩
    cases hf : Note.findOne ckey store title with
    | some d => exact ⟨d, rfl⟩
    | none => exact absurd hmk ((findOne_eq_none ckey store title).1 hf m hm)
  refine ⟨?_, ?_, ?_⟩
  · intro newId user title text hu ht hx hex
    obtain ⟨d, hd⟩ := hfound title hex
    rw [createNewNote_valid ckey newId store user title text hu ht hx, hd]
  · intro id user title text completed note hi hu ht hx hids hf hex hself
    obtain ⟨d, hd⟩ := hfound title hex
    obtain ⟨hdmem, hdk⟩ := findOne_some ckey store title d hd
    obtain ⟨hnmem, hnid⟩ := findById_some store id note hf
    have hdid : d.id ≠ id := by
      intro h
      have hsymm : Symmetric (fun a b : Note => a.id ≠ b.id) := fun a b h => Ne.symm h
      by_cases hdn : d = note
      · exact hself (hdn ▸ hdk)
      · exact List.Pairwise.forall hsymm hids hdmem hnmem hdn (h.trans hnid.symm)
    rw [updateNote_valid ckey store id user title text completed hi hu ht hx, hf, hd]
    simp [hdid]
  · intro id user title text completed note hi hu ht hx hinv hf ⟨m, hm, hmid, hmk⟩
    rw [updateNote_valid ckey store id user title text completed hi hu ht hx, hf]
    by_cases hd : ((Note.findOne ckey store title).isSome
        && ((Note.findOne ckey store title).map fun d => d.id) != some id) = true
    · simp only [hd, ↓reduceIte]
    · exact absurd hmk (no_other_holder ckey store title id hinv hd m hm hmid)

/-- Witness of C2: with "Groceries" stored, creating "GROCERIES" and renaming
another note to "groceries" both conflict. -/
theorem duplicate_title_conflict_witness :
    createNewNote asciiFold "n3"
        [{ id := "n1", user := "u1", title := "Groceries", text := "a", completed := false },
         { id := "n2", user := "u1", title := "Chores", text := "b", completed := false }]
        { user := some "u2", title := some "GROCERIES", text := some "c" }
      = ([{ id := "n1", user := "u1", title := "Groceries", text := "a", completed := false },
          { id := "n2", user := "u1", title := "Chores", text := "b", completed := false }],
          { status := 409, body := .message "Duplicate note title" }) ∧
    updateNote asciiFold
        [{ id := "n1", user := "u1", title := "Groceries", text := "a", completed := false },
         { id := "n2", user := "u1", title := "Chores", text := "b", completed := false }]
        { id := some "n2", user := some "u1", title := some "groceries", text := some "b",
          completed := .bool true }
      = ([{ id := "n1", user := "u1", title := "Groceries", text := "a", completed := false },
          { id := "n2", user := "u1", title := "Chores", text := "b", completed := false }],
          { status := 409, body := .message "Duplicate note title" }) :=
  ⟨(duplicate_title_conflict asciiFold _).1 "n3" "u2" "GROCERIES" "c"
      (by decide) (by decide) (by decide)
      ⟨{ id := "n1", user := "u1", title := "Groceries", text := "a", completed := false },
        by simp, by decide⟩,
   (duplicate_title_conflict asciiFold _).2.1 "n2" "u1" "groceries" "b" true
      { id := "n2", user := "u1", title := "Chores", text := "b", completed := false }
      (by decide) (by decide) (by decide) (by decide)
      (by simp [IdsUnique]) (by decide)
      ⟨{ id := "n1", user := "u1", title := "Groceries", text := "a", completed := false },
        by simp, by decide⟩
      (by decide)⟩

/-- Counterexample to C3 as stated for every store state: in a store holding
"x" and then "X" (titles equal under the collation), updating the second note
with its own id and its own stored title, all fields valid, is answered 409
"Duplicate note title", not 200. -/
theorem self_rename_conflict_counterexample :
    ¬ ∀ (store : NoteStore) (n : Note) (user text : String) (completed : Bool),
      n ∈ store → n.id ≠ "" → user ≠ "" → n.title ≠ "" → text ≠ "" →
      (updateNote asciiFold store
          { id := some n.id, user := some user, title := some n.title, text := some text,
            completed := .bool completed }).2.status = 200 := by
  intro h
  have h1 := h
    [{ id := "n1", user := "u1", title := "x", text := "a", completed := false },
     { id := "n2", user := "u1", title := "X", text := "b", completed := false }]
    { id := "n2", user := "u1", title := "X", text := "b", completed := false }
    "u1" "b" false (by simp) (by decide) (by decide) (by decide) (by decide)
  have h2 : (updateNote asciiFold
      [{ id := "n1", user := "u1", title := "x", text := "a", completed := false },
       { id := "n2", user := "u1", title := "X", text := "b", completed := false }]
      { id := some "n2", user := some "u1", title := some "X", text := some "b",
        completed := .bool false }).2
      = { status := 409, body := .message "Duplicate note title" } := by decide
  rw [h2] at h1
  exact absurd h1 (by decide)

/-- C3 (amended): when no note with another id holds a title equal under the
collation to the stored title of an existing note `n` (as in every store with
unique titles), `updateNote` with the id of `n`, non-falsy user and text, a
boolean `completed` and the stored title of `n` is answered 200, not 409. -/
theorem self_rename_allowed {K : Type} [DecidableEq K] (ckey : String → K)
    (store : NoteStore) (n : Note) (user text : String) (completed : Bool)
    (hn : n ∈ store) (hi : n.id ≠ "") (hu : user ≠ "") (ht : n.title ≠ "") (hx : text ≠ "")
    (hother : ∀ m ∈ store, m.id ≠ n.id → ckey m.title ≠ ckey n.title) :
    (updateNote ckey store
        { id := some n.id, user := some user, title := some n.title, text := some text,
          completed := .bool completed }).2
      = { status := 200, body := .message ("\"" ++ n.title ++ "\" updated") } := by
  rw [updateNote_valid ckey store n.id user n.title text completed hi hu ht hx]
  cases hf : Note.findById store n.id with
  | none => exact absurd rfl ((findById_eq_none store n.id).1 hf n hn)
  | some note =>
    have hd : ¬ ((Note.findOne ckey store n.title).isSome
        && ((Note.findOne ckey store n.title).map fun d => d.id) != some n.id) = true := by
      cases hd : Note.findOne ckey store n.title with
      | none => simp
      | some d =>
        obtain ⟨hdmem, hdk⟩ := findOne_some ckey store n.title d hd
        have : d.id = n.id := by
          by_contra hne
          exact hother d hdmem hne hdk
        simp [this]
    simp only [hd, Bool.false_eq_true, ↓reduceIte]

/-- Witness of C3 (amended). -/
theorem self_rename_allowed_witness :
    (updateNote asciiFold
        [{ id := "n1", user := "u1", title := "Todo", text := "a", completed := false },
         { id := "n2", user := "u1", title := "Chores", text := "b", completed := false }]
        { id := some "n2", user := some "u2", title := some "Chores", text := some "c",
          completed := .bool true }).2
      = { status := 200, body := .message "\"Chores\" updated" } :=
  self_rename_allowed asciiFold
    [{ id := "n1", user := "u1", title := "Todo", text := "a", completed := false },
     { id := "n2", user := "u1", title := "Chores", text := "b", completed := false }]
    { id := "n2", user := "u1", title := "Chores", text := "b", completed := false }
    "u2" "c" true (by simp) (by decide) (by decide) (by decide) (by decide)
    (by decide)

/-! ## Listing the notes -/

theorem withUsername_of_owner (users : UserStore) (note : Note)
    (h : ∃ u ∈ users, u.id = note.user) :
    withUsername users note = .ok (NoteView.ofNote note (usernameOf users note.user)) := by
  obtain ⟨u, hu, hid⟩ := h
  induction users with
  | nil => simp at hu
  | cons v rest ih =>
    by_cases hv : v.id = note.user
    · simp [withUsername, User.findById, usernameOf, List.filter, hv, NoteView.ofNote]
    · have hu1 : u ∈ rest := by
        rcases List.mem_cons.1 hu with h1 | h1
        · exact absurd (h1 ▸ hid) hv
        · exact h1
      have := ih hu1
      simp only [withUsername, User.findById, usernameOf] at this ⊢
      rw [List.find?_cons_of_neg _ (by simpa using hv),
        List.filter_cons_of_neg (by simpa using hv)]
      exact this

theorem notesWithUser_of_owners (users : UserStore) (notes : List Note)
    (h : ∀ n ∈ notes, ∃ u ∈ users, u.id = n.user) :
    notesWithUser users notes
      = .ok (notes.map fun n => NoteView.ofNote n (usernameOf users n.user)) := by
  induction notes with
  | nil => rfl
  | cons n rest ih =>
    simp only [notesWithUser, withUsername_of_owner users n (h n (List.mem_cons_self _ _)),
      ih (fun m hm => h m (List.mem_cons_of_mem _ hm)), List.map_cons]

theorem notesWithUser_orphan (users : UserStore) (notes : List Note) (n : Note)
    (hn : n ∈ notes) (horphan : User.findById users n.user = none) :
    ∃ e, notesWithUser users notes = .error e := by
  induction notes with
  | nil => simp at hn
  | cons m rest ih =>
    simp only [notesWithUser]
    cases hw : withUsername users m with
    | error e => exact ⟨e, rfl⟩
    | ok v =>
      rcases List.mem_cons.1 hn with h1 | h1
      · subst h1
        simp [withUsername, horphan] at hw
      · obtain ⟨e, he⟩ := ih h1
        exact ⟨e, by simp [he]⟩

/-- C4 (what the code does): when some note of the store has an owner id with
no matching User, `getAllNotes` answers nothing: the `TypeError` raised by
`user.username` on `null` escapes the handler. -/
theorem getAllNotes_orphan_throws (users : UserStore) (store : NoteStore) (n : Note)
    (hn : n ∈ store) (horphan : User.findById users n.user = none) :
    ∃ e, getAllNotes users store = .error e := by
  have hne : store.length ≠ 0 := by
    intro h
    rw [List.length_eq_zero] at h
    simp [h] at hn
  obtain ⟨e, he⟩ := notesWithUser_orphan users store n hn horphan
  exact ⟨e, by simp [getAllNotes, Note.find, hne, he]⟩

/-- Witness of C4: one note whose owner "u9" is not in the user store. -/
theorem getAllNotes_orphan_throws_witness :
    ∃ e, getAllNotes [{ id := "u1", username := "ann" }]
      [{ id := "n1", user := "u9", title := "Shopping", text := "milk", completed := false }]
      = .error e :=
  getAllNotes_orphan_throws [{ id := "u1", username := "ann" }]
    [{ id := "n1", user := "u9", title := "Shopping", text := "milk", completed := false }]
    { id := "n1", user := "u9", title := "Shopping", text := "milk", completed := false }
    (by simp) (by decide)

/-- C5: `getAllNotes` agrees with its reference. On an empty store it answers
400 with "No notes found"; on a non-empty store in which every owner exists it
answers 200 with the array of the reference, which has the length of the store
and whose i-th element is the i-th note with the username of its owner. -/
theorem getAllNotes_refines (users : UserStore) (store : NoteStore) :
    (store = [] →
      getAllNotes users store = .ok { status := 400, body := .message "No notes found" }) ∧
    ((∀ n ∈ store, ∃ u ∈ users, u.id = n.user) →
      getAllNotes users store = .ok (getAllNotesRef users store) ∧
      (store ≠ [] →
        ∃ views, getAllNotesRef users store = { status := 200, body := .notes views } ∧
          views.length = store.length ∧
          ∀ i (hi : i < store.length), ∃ u, User.findById users store[i].user = some u ∧
            views[i]? = some (NoteView.ofNote store[i] u.username))) := by
  refine ⟨fun h => by subst h; rfl, fun h => ⟨?_, fun hne => ?_⟩⟩
  · by_cases hs : store = []
    · subst hs; rfl
    · have hlen : store.length ≠ 0 := fun h0 => hs (List.length_eq_zero.1 h0)
      simp [getAllNotes, Note.find, hlen, notesWithUser_of_owners users store h,
        getAllNotesRef, hs]
  · refine ⟨store.map fun n => NoteView.ofNote n (usernameOf users n.user),
      by simp [getAllNotesRef, hne], by simp, ?_⟩
    intro i hi
    have hmem : store[i] ∈ store := List.getElem_mem _
    have hw := withUsername_of_owner users _ (h _ hmem)
    rw [List.getElem?_map, List.getElem?_eq_getElem hi]
    generalize store[i] = n at hw ⊢
    cases hf : User.findById users n.user with
    | none => simp [withUsername, hf] at hw
    | some u =>
      refine ⟨u, rfl, ?_⟩
      simp only [withUsername, hf, Except.ok.injEq] at hw
      rw [Option.map_some', ← hw]
      rfl

/-- Witness of C5 on a store of two notes with existing owners. -/
theorem getAllNotes_refines_witness :
    getAllNotes [{ id := "u1", username := "ann" }, { id := "u2", username := "bob" }]
      [{ id := "n1", user := "u2", title := "Shopping", text := "milk", completed := false },
       { id := "n2", user := "u1", title := "Chores", text := "mop", completed := true }]
      = .ok (getAllNotesRef
          [{ id := "u1", username := "ann" }, { id := "u2", username := "bob" }]
          [{ id := "n1", user := "u2", title := "Shopping", text := "milk", completed := false },
           { id := "n2", user := "u1", title := "Chores", text := "mop", completed := true }]) :=
  ((getAllNotes_refines _ _).2 (by decide)).1

/-! ## Effects on the store -/

theorem findById_split (store : NoteStore) (id : String) (note : Note)
    (h : Note.findById store id = some note) :
    ∃ pre post, store = pre ++ note :: post ∧ ∀ m ∈ pre, m.id ≠ id := by
  obtain ⟨_, pre, post, hs, hpre⟩ := List.find?_eq_some.1 h
  exact ⟨pre, post, hs, fun m hm => by simpa using hpre m hm⟩

theorem save_split (pre post : List Note) (x n : Note)
    (hpre : ∀ m ∈ pre, m.id ≠ n.id) (hx : x.id = n.id) :
    Note.save (pre ++ x :: post) n = pre ++ n :: post := by
  induction pre with
  | nil => simp [Note.save, hx]
  | cons m rest ih =>
    have hm : m.id ≠ n.id := hpre m (List.mem_cons_self _ _)
    rw [List.cons_append, Note.save, if_neg hm,
      ih (fun y hy => hpre y (List.mem_cons_of_mem _ hy)), List.cons_append]

theorem deleteOne_split (pre post : List Note) (n : Note)
    (hpre : ∀ m ∈ pre, m.id ≠ n.id) :
    Note.deleteOne (pre ++ n :: post) n = pre ++ post := by
  induction pre with
  | nil => simp [Note.deleteOne]
  | cons m rest ih =>
    have hm : m.id ≠ n.id := hpre m (List.mem_cons_self _ _)
    rw [List.cons_append, Note.deleteOne, if_neg hm,
      ih (fun y hy => hpre y (List.mem_cons_of_mem _ hy)), List.cons_append]

theorem idsUnique_split (pre post : List Note) (n : Note)
    (h : IdsUnique (pre ++ n :: post)) : ∀ m ∈ pre ++ post, m.id ≠ n.id := by
  unfold IdsUnique at h
  rw [List.pairwise_append, List.pairwise_cons] at h
  intro m hm
  rcases List.mem_append.1 hm with h1 | h1
  · exact h.2.2 m h1 n (List.mem_cons_self _ _)
  · exact fun e => h.2.1.1 m h1 e.symm

theorem save_save (store : NoteStore) (n : Note) :
    Note.save (Note.save store n) n = Note.save store n := by
  induction store with
  | nil => rfl
  | cons m rest ih =>
    by_cases hm : m.id = n.id
    · simp [Note.save, hm]
    · simp [Note.save, hm, ih]

theorem save_ids (store : NoteStore) (n : Note) :
    (Note.save store n).map (fun m => m.id) = store.map (fun m => m.id) := by
  induction store with
  | nil => rfl
  | cons m rest ih =>
    by_cases hm : m.id = n.id
    · simp [Note.save, hm]
    · simp [Note.save, hm, ih]

/-- Unique ids are kept by the three writing handlers, the id chosen by the
store at creation being fresh. -/
theorem idsUnique_invariant {K : Type} [DecidableEq K] (ckey : String → K)
    (store : NoteStore) (hids : IdsUnique store) :
    (∀ newId body, (∀ n ∈ store, n.id ≠ newId) →
      IdsUnique (createNewNote ckey newId store body).1) ∧
    (∀ body, IdsUnique (updateNote ckey store body).1) ∧
    (∀ body, IdsUnique (deleteNote store body).1) := by
  refine ⟨?_, ?_, ?_⟩
  · intro newId body hfresh
    rcases createNewNote_store ckey newId store body with h | ⟨user, title, text, _, h⟩
    · rw [h]; exact hids
    · rw [h]
      unfold IdsUnique at *
      rw [List.pairwise_append]
      refine ⟨hids, List.pairwise_singleton _ _, ?_⟩
      intro a ha b hb
      rw [List.mem_singleton] at hb
      subst hb
      exact hfresh a ha
  · intro body
    rcases updateNote_store ckey store body with
      h | ⟨id, user, title, text, completed, note, _, _, _, _, _, _, _, h⟩
    · rw [h]; exact hids
    · rw [h]
      unfold IdsUnique at *
      have h1 : List.Pairwise (fun a b : String => a ≠ b) (store.map fun m => m.id) :=
        List.pairwise_map.2 hids
      rw [← save_ids store { note with user := user, title := title, text := text,
                                        completed := completed }] at h1
      exact List.pairwise_map.1 h1
  · intro body
    rcases deleteNote_store store body with h | ⟨note, h⟩
    · rw [h]; exact hids
    · rw [h]
      exact List.Pairwise.sublist (deleteOne_sublist store note) hids

/-- Create then list, on stores without orphan notes: a valid create whose user exists and
whose title matches no stored title is answered 201 "New note created", and
`getAllNotes` on the store it leaves answers 200 with an array containing the
record with that title, that text, `completed = false` and the username of
that user, provided every note already stored has an existing owner. -/
theorem create_then_list {K : Type} [DecidableEq K] (ckey : String → K) (newId : String)
    (users : UserStore) (store : NoteStore) (user title text : String) (u : User)
    (hu : user ≠ "") (ht : title ≠ "") (hx : text ≠ "")
    (huser : User.findById users user = some u)
    (hfree : ∀ m ∈ store, ckey m.title ≠ ckey title)
    (howners : ∀ n ∈ store, ∃ v ∈ users, v.id = n.user) :
    (createNewNote ckey newId store
        { user := some user, title := some title, text := some text }).2
      = { status := 201, body := .message "New note created" } ∧
    ∃ views,
      getAllNotes users (createNewNote ckey newId store
        { user := some user, title := some title, text := some text }).1
        = .ok { status := 200, body := .notes views } ∧
      { id := newId, user := user, title := title, text := text, completed := false,
        username := u.username } ∈ views := by
  have hnone := (findOne_eq_none ckey store title).2 hfree
  rw [createNewNote_valid ckey newId store user title text hu ht hx, hnone]
  refine ⟨rfl, ?_⟩
  have hu_mem : u ∈ users ∧ u.id = user := by
    refine ⟨List.mem_of_find?_eq_some huser, ?_⟩
    have := List.find?_some huser
    simpa using this
  have hall : ∀ n, n ∈ store ++ [Note.mk newId user title text false] →
      ∃ v ∈ users, v.id = n.user := by
    intro n hn
    rcases List.mem_append.1 hn with h1 | h1
    · exact howners n h1
    · rw [List.mem_singleton] at h1
      subst h1
      exact ⟨u, hu_mem.1, hu_mem.2⟩
  have hw := withUsername_of_owner users
    { id := newId, user := user, title := title, text := text, completed := false }
    ⟨u, hu_mem.1, hu_mem.2⟩
  simp only [withUsername, huser, Except.ok.injEq] at hw
  refine ⟨(store ++ [Note.mk newId user title text false]).map
    fun n => NoteView.ofNote n (usernameOf users n.user), ?_, ?_⟩
  · simp only [getAllNotes, Note.find, notesWithUser_of_owners users _ hall]
    simp
  · rw [List.map_append, List.mem_append]
    right
    rw [List.map_singleton, List.mem_singleton, ← hw]

/-- The POST then GET scenario on an empty store. -/
theorem create_then_list_witness :
    (createNewNote asciiFold "n1" []
        { user := some "u1", title := some "Shopping", text := some "milk" }).2
      = { status := 201, body := .message "New note created" } ∧
    ∃ views,
      getAllNotes [{ id := "u1", username := "ann" }] (createNewNote asciiFold "n1" []
        { user := some "u1", title := some "Shopping", text := some "milk" }).1
        = .ok { status := 200, body := .notes views } ∧
      { id := "n1", user := "u1", title := "Shopping", text := "milk", completed := false,
        username := "ann" } ∈ views :=
  create_then_list asciiFold "n1" [{ id := "u1", username := "ann" }] [] "u1" "Shopping" "milk"
    { id := "u1", username := "ann" } (by decide) (by decide) (by decide) (by decide)
    (by simp) (by simp)

/-- C6 (what the code does on a store with an orphan note): the create is
answered 201, and `getAllNotes` on the store it leaves answers nothing, the
`TypeError` of the orphan note escaping the handler. -/
theorem create_then_list_orphan_throws :
    (createNewNote asciiFold "n2"
        [{ id := "n1", user := "u9", title := "Chores", text := "mop", completed := false }]
        { user := some "u1", title := some "Shopping", text := some "milk" }).2
      = { status := 201, body := .message "New note created" } ∧
    getAllNotes [{ id := "u1", username := "ann" }] (createNewNote asciiFold "n2"
        [{ id := "n1", user := "u9", title := "Chores", text := "mop", completed := false }]
        { user := some "u1", title := some "Shopping", text := some "milk" }).1
      = .error (.typeError "Cannot read properties of null (reading username)") :=
  ⟨rfl, rfl⟩

/-- C7: a successful update (valid fields, the id naming the stored note
`note`, no note with another id holding the title) is answered 200 with the
message made of the quoted request title and " updated", and the store it
leaves is the previous one with that note, at its place, carrying the user,
title, text and completed of the request under its old id; the notes before and
after it are unchanged, none is added or removed, and with unique ids no other
note has that id. -/
theorem updateNote_frame {K : Type} [DecidableEq K] (ckey : String → K)
    (store : NoteStore) (id user title text : String) (completed : Bool) (note : Note)
    (hi : id ≠ "") (hu : user ≠ "") (ht : title ≠ "") (hx : text ≠ "")
    (hf : Note.findById store id = some note)
    (hother : ∀ m ∈ store, m.id ≠ id → ckey m.title ≠ ckey title) :
    (updateNote ckey store
        { id := some id, user := some user, title := some title, text := some text,
          completed := .bool completed }).2
      = { status := 200, body := .message ("\"" ++ title ++ "\" updated") } ∧
    ∃ pre post, store = pre ++ note :: post ∧ note.id = id ∧
      (∀ m ∈ pre, m.id ≠ id) ∧ (IdsUnique store → ∀ m ∈ pre ++ post, m.id ≠ id) ∧
      (updateNote ckey store
        { id := some id, user := some user, title := some title, text := some text,
          completed := .bool completed }).1
        = pre ++ { id := id, user := user, title := title, text := text,
                   completed := completed } :: post := by
  have hd : ¬ ((Note.findOne ckey store title).isSome
      && ((Note.findOne ckey store title).map fun d => d.id) != some id) = true := by
    cases hd : Note.findOne ckey store title with
    | none => simp
    | some d =>
      obtain ⟨hdmem, hdk⟩ := findOne_some ckey store title d hd
      have : d.id = id := by
        by_contra hne
        exact hother d hdmem hne hdk
      simp [this]
  have hid : note.id = id := (findById_some store id note hf).2
  obtain ⟨pre, post, hs, hpre⟩ := findById_split store id note hf
  rw [updateNote_valid ckey store id user title text completed hi hu ht hx, hf]
  simp only [hd, Bool.false_eq_true, ↓reduceIte, true_and]
  refine ⟨pre, post, hs, hid, hpre, ?_, ?_⟩
  · intro hids
    rw [hs] at hids
    exact fun m hm => hid ▸ idsUnique_split pre post note hids m hm
  · rw [hid]
    conv_lhs => rw [hs]
    exact save_split pre post note _ hpre hid

/-- Witness of C7: the second of three notes is updated. -/
theorem updateNote_frame_witness :
    (updateNote asciiFold
        [{ id := "n1", user := "u1", title := "Todo", text := "a", completed := false },
         { id := "n2", user := "u1", title := "Chores", text := "b", completed := false },
         { id := "n3", user := "u2", title := "Shopping", text := "c", completed := true }]
        { id := some "n2", user := some "u2", title := some "Errands", text := some "d",
          completed := .bool true }).2
      = { status := 200, body := .message "\"Errands\" updated" } ∧
    ∃ pre post,
      [{ id := "n1", user := "u1", title := "Todo", text := "a", completed := false },
       { id := "n2", user := "u1", title := "Chores", text := "b", completed := false },
       { id := "n3", user := "u2", title := "Shopping", text := "c", completed := true }]
        = pre ++ ({ id := "n2", user := "u1", title := "Chores", text := "b",
                    completed := false } : Note) :: post ∧
      ({ id := "n2", user := "u1", title := "Chores", text := "b",
         completed := false } : Note).id = "n2" ∧
      (∀ m ∈ pre, m.id ≠ "n2") ∧
      (IdsUnique
        [{ id := "n1", user := "u1", title := "Todo", text := "a", completed := false },
         { id := "n2", user := "u1", title := "Chores", text := "b", completed := false },
         { id := "n3", user := "u2", title := "Shopping", text := "c", completed := true }] →
        ∀ m ∈ pre ++ post, m.id ≠ "n2") ∧
      (updateNote asciiFold
        [{ id := "n1", user := "u1", title := "Todo", text := "a", completed := false },
         { id := "n2", user := "u1", title := "Chores", text := "b", completed := false },
         { id := "n3", user := "u2", title := "Shopping", text := "c", completed := true }]
        { id := some "n2", user := some "u2", title := some "Errands", text := some "d",
          completed := .bool true }).1
        = pre ++ { id := "n2", user := "u2", title := "Errands", text := "d",
                   completed := true } :: post :=
  updateNote_frame asciiFold _ "n2" "u2" "Errands" "d" true
    { id := "n2", user := "u1", title := "Chores", text := "b", completed := false }
    (by decide) (by decide) (by decide) (by decide) (by decide) (by decide)

/-- C8: `updateNote` is idempotent on the stored state: for every store and
every body, applying the request to the store left by a first application
leaves that same store. -/
theorem updateNote_idempotent {K : Type} [DecidableEq K] (ckey : String → K)
    (store : NoteStore) (body : UpdateBody) :
    (updateNote ckey (updateNote ckey store body).1 body).1
      = (updateNote ckey store body).1 := by
  rcases updateNote_store ckey store body with
    h | ⟨id, user, title, text, completed, note, hb, _, _, _, _, hf, _, h⟩
  · rw [h]; exact h
  · rw [h]
    rcases updateNote_store ckey
        (Note.save store { note with user := user, title := title, text := text,
                                     completed := completed }) body with
      h2 | ⟨id2, user2, title2, text2, completed2, note2, hb2, _, _, _, _, hf2, _, h2⟩
    · exact h2
    · rw [h2]
      rw [hb] at hb2
      simp only [UpdateBody.mk.injEq, Option.some.injEq, JsValue.bool.injEq] at hb2
      obtain ⟨e1, e2, e3, e4, e5⟩ := hb2
      subst e1 e2 e3 e4 e5
      have hid : note.id = id := (findById_some store id note hf).2
      have hid2 : note2.id = id := (findById_some _ id note2 hf2).2
      rw [hid2, ← hid]
      exact save_save store _

/-- C9: for a non-falsy id that names no note, `deleteNote` is answered 400
"Note not found" and leaves the store as it was, and so is `updateNote` with
that id and otherwise valid fields; in particular (ids unique) this is the
answer of `updateNote` for the id of a note that `deleteNote` has just
removed. -/
theorem unknown_id_not_found {K : Type} [DecidableEq K] (ckey : String → K)
    (store : NoteStore) (id : String) (hi : id ≠ "") :
    ((∀ n ∈ store, n.id ≠ id) →
      deleteNote store { id := some id }
        = (store, { status := 400, body := .message "Note not found" }) ∧
      ∀ user title text completed, user ≠ "" → title ≠ "" → text ≠ "" →
        updateNote ckey store
            { id := some id, user := some user, title := some title, text := some text,
              completed := .bool completed }
          = (store, { status := 400, body := .message "Note not found" })) ∧
    (IdsUnique store → (∃ n ∈ store, n.id = id) →
      ∀ user title text completed, user ≠ "" → title ≠ "" → text ≠ "" →
        updateNote ckey (deleteNote store { id := some id }).1
            { id := some id, user := some user, title := some title, text := some text,
              completed := .bool completed }
          = ((deleteNote store { id := some id }).1,
              { status := 400, body := .message "Note not found" })) := by
  have key : ∀ st : NoteStore, (∀ n ∈ st, n.id ≠ id) →
      ∀ user title text completed, user ≠ "" → title ≠ "" → text ≠ "" →
        updateNote ckey st
            { id := some id, user := some user, title := some title, text := some text,
              completed := .bool completed }
          = (st, { status := 400, body := .message "Note not found" }) := by
    intro st hno user title text completed hu ht hx
    rw [updateNote_valid ckey st id user title text completed hi hu ht hx,
      (findById_eq_none st id).2 hno]
  refine ⟨fun hno => ⟨?_, key store hno⟩, ?_⟩
  · rw [deleteNote_valid store id hi, (findById_eq_none store id).2 hno]
  · intro hids ⟨n, hn, hnid⟩
    apply key
    cases hf : Note.findById store id with
    | none => exact absurd hnid ((findById_eq_none store id).1 hf n hn)
    | some note =>
      obtain ⟨pre, post, hs, hpre⟩ := findById_split store id note hf
      have hid : note.id = id := (findById_some store id note hf).2
      have hdel : Note.deleteOne store note = pre ++ post := by
        conv_lhs => rw [hs]
        exact deleteOne_split pre post note (hid ▸ hpre)
      rw [deleteNote_valid store id hi, hf]
      simp only [hdel]
      rw [hs] at hids
      exact fun m hm => hid ▸ idsUnique_split pre post note hids m hm

/-- Witness of C9: an id unknown to the store, and the id of a deleted note. -/
theorem unknown_id_not_found_witness :
    (deleteNote
        [{ id := "n1", user := "u1", title := "Todo", text := "a", completed := false }]
        { id := some "zzz" }
      = ([{ id := "n1", user := "u1", title := "Todo", text := "a", completed := false }],
          { status := 400, body := .message "Note not found" })) ∧
    updateNote asciiFold
        (deleteNote
          [{ id := "n1", user := "u1", title := "Todo", text := "a", completed := false },
           { id := "n2", user := "u1", title := "Chores", text := "b", completed := false }]
          { id := some "n2" }).1
        { id := some "n2", user := some "u1", title := some "Chores", text := some "b",
          completed := .bool true }
      = ((deleteNote
          [{ id := "n1", user := "u1", title := "Todo", text := "a", completed := false },
           { id := "n2", user := "u1", title := "Chores", text := "b", completed := false }]
          { id := some "n2" }).1,
          { status := 400, body := .message "Note not found" }) :=
  ⟨((unknown_id_not_found asciiFold
        [{ id := "n1", user := "u1", title := "Todo", text := "a", completed := false }]
        "zzz" (by decide)).1 (by decide)).1,
   (unknown_id_not_found asciiFold
        [{ id := "n1", user := "u1", title := "Todo", text := "a", completed := false },
         { id := "n2", user := "u1", title := "Chores", text := "b", completed := false }]
        "n2" (by decide)).2 (by simp [IdsUnique])
      ⟨{ id := "n2", user := "u1", title := "Chores", text := "b", completed := false },
        by simp, rfl⟩
      "u1" "Chores" "b" true (by decide) (by decide) (by decide)⟩

/-- C10: for a non-falsy id naming the stored note `note`, `deleteNote` is
answered 200 with the bare string made of "Note titled", the quoted title,
"with ID", the id and "deleted", and the store it leaves is the previous one
with that note removed from its place, the notes before and after it
unchanged; with unique ids no note with that id remains. -/
theorem deleteNote_removes (store : NoteStore) (id : String) (note : Note)
    (hi : id ≠ "") (hf : Note.findById store id = some note) :
    (deleteNote store { id := some id }).2
      = { status := 200,
          body := .text ("Note titled \"" ++ note.title ++ "\" with ID " ++ id ++ " deleted") } ∧
    ∃ pre post, store = pre ++ note :: post ∧ note.id = id ∧ (∀ m ∈ pre, m.id ≠ id) ∧
      (deleteNote store { id := some id }).1 = pre ++ post ∧
      (IdsUnique store → ∀ m ∈ (deleteNote store { id := some id }).1, m.id ≠ id) := by
  have hid : note.id = id := (findById_some store id note hf).2
  obtain ⟨pre, post, hs, hpre⟩ := findById_split store id note hf
  rw [deleteNote_valid store id hi, hf]
  have hdel : Note.deleteOne store note = pre ++ post := by
    conv_lhs => rw [hs]
    exact deleteOne_split pre post note (hid ▸ hpre)
  simp only [hid, hdel, true_and]
  refine ⟨pre, post, hs, hpre, rfl, ?_⟩
  intro hids
  rw [hs] at hids
  exact fun m hm => hid ▸ idsUnique_split pre post note hids m hm

/-- Witness of C10: deleting "Shopping" with id "abc123". -/
theorem deleteNote_removes_witness :
    (deleteNote
        [{ id := "n1", user := "u1", title := "Todo", text := "a", completed := false },
         { id := "abc123", user := "u1", title := "Shopping", text := "milk",
           completed := false }]
        { id := some "abc123" }).2
      = { status := 200, body := .text "Note titled \"Shopping\" with ID abc123 deleted" } ∧
    (deleteNote
        [{ id := "n1", user := "u1", title := "Todo", text := "a", completed := false },
         { id := "abc123", user := "u1", title := "Shopping", text := "milk",
           completed := false }]
        { id := some "abc123" }).1
      = [{ id := "n1", user := "u1", title := "Todo", text := "a", completed := false }] :=
  ⟨(deleteNote_removes
      [{ id := "n1", user := "u1", title := "Todo", text := "a", completed := false },
       { id := "abc123", user := "u1", title := "Shopping", text := "milk",
         completed := false }]
      "abc123"
      { id := "abc123", user := "u1", title := "Shopping", text := "milk", completed := false }
      (by decide) (by decide)).1.trans (by decide),
   by decide⟩

end TechNotes
